import Mathlib

/-!
Verification of the movie-review hybrid search quickstart scripts
(`quickstart.py` and `quickstart_openai.py`) against their design
specification.  Pure Python functions are embedded as Lean functions;
floating-point review data and weights are embedded as exact rationals,
and the real-valued cosine similarity over embeddings as functions on
`List ℝ`.  Fallible calls (numpy dimension errors, constructor
validation) are embedded as `Option`/explicit result types.
-/

namespace Quickstart

/-- The number-space mode enumeration (`sl.Mode`); `quickstart.py` uses
`sl.Mode.SIMILAR` for the rating space. -/
inductive Mode
  | SIMILAR
  | MAXIMUM
  | MINIMUM
deriving DecidableEq, Repr

/-- Configuration of a `sl.NumberSpace` as built in `create_search_index`:
a declared `[min_value, max_value]` range and a mode. -/
structure NumberSpaceConfig where
  min_value : ℚ
  max_value : ℚ
  mode : Mode
deriving DecidableEq, Repr

/-- The two-space index/query configuration produced by
`create_search_index` in `quickstart.py`: a text space weighted by
`text_weight` and a rating `NumberSpace` weighted by `rating_weight`. -/
structure SearchIndexConfig where
  text_weight : ℚ
  rating_weight : ℚ
  rating_space : NumberSpaceConfig
deriving DecidableEq, Repr

/-- Embedding of `create_search_index` (quickstart.py): the rating space
is always `NumberSpace(min_value=0.0, max_value=5.0, mode=sl.Mode.SIMILAR)`
and the query carries the two weights. -/
def create_search_index (text_weight rating_weight : ℚ) : SearchIndexConfig :=
  { text_weight := text_weight
    rating_weight := rating_weight
    rating_space := { min_value := 0, max_value := 5, mode := Mode.SIMILAR } }

/-- The default weights of `create_search_index`
(`text_weight: float = 0.7`, `rating_weight: float = 0.3`). -/
def default_search_index : SearchIndexConfig := create_search_index 0.7 0.3

/-- Modelled from the spec: the number-space normalization (section 4.1,
NumericProximity) maps a raw number through min/max normalization; the
superlinked engine implementing it is an external library, not under the
repository sources. -/
def numberNormalize (cfg : NumberSpaceConfig) (x : ℚ) : ℚ :=
  (x - cfg.min_value) / (cfg.max_value - cfg.min_value)

/-- Modelled from the spec: in mode `SIMILAR`, similarity decreases
monotonically with absolute normalized difference, `1 - |a - b|` on
normalized values (section 4.1); the engine is not under the repository
sources. -/
def numberSimilarity (cfg : NumberSpaceConfig) (a b : ℚ) : ℚ :=
  1 - |numberNormalize cfg a - numberNormalize cfg b|

/-- Modelled from the spec: the composite score of a record is the
weighted sum of per-space similarities (section 4.2,
`composite_score = Σ weight(space) * similarity(...)`); the engine is not
under the repository sources.  `textSim` is the record's text-space
similarity to the query text; `rating`/`target` feed the rating space. -/
def compositeScore (cfg : SearchIndexConfig) (textSim rating target : ℚ) : ℚ :=
  cfg.text_weight * textSim +
    cfg.rating_weight * numberSimilarity cfg.rating_space rating target

/-- Claim C1: for the two-space index built by `create_search_index` with
its default arguments, the composite score is
`0.7 * textSim + 0.3 * (1 - |rating - target| / 5)`; at query target
rating 4.5, a record with rating 4.5 and text similarity 0.8 scores 0.86,
a record with rating 1.0 and text similarity 0.9 scores 0.72, and the
first outranks the second. -/
theorem composite_score_two_space_example :
    (∀ textSim rating target : ℚ,
        compositeScore default_search_index textSim rating target
          = 0.7 * textSim + 0.3 * (1 - |rating - target| / 5)) ∧
    compositeScore default_search_index 0.8 4.5 4.5 = 0.86 ∧
    compositeScore default_search_index 0.9 1.0 4.5 = 0.72 ∧
    compositeScore default_search_index 0.9 1.0 4.5
      < compositeScore default_search_index 0.8 4.5 4.5 := by
  have hgen : ∀ textSim rating target : ℚ,
      compositeScore default_search_index textSim rating target
        = 0.7 * textSim + 0.3 * (1 - |rating - target| / 5) := by
    intro textSim rating target
    have h5 : |rating / 5 - target / 5| = |rating - target| / 5 := by
      rw [div_sub_div_same, abs_div]
      norm_num
    simp only [compositeScore, numberSimilarity, numberNormalize,
      default_search_index, create_search_index]
    rw [show rating - (0 : ℚ) = rating by ring, show target - (0 : ℚ) = target by ring,
      show (5 : ℚ) - 0 = 5 by norm_num, h5]
  refine ⟨hgen, ?_, ?_, ?_⟩
  · rw [hgen]; norm_num
  · rw [hgen]; norm_num [abs_of_neg]
  · rw [hgen, hgen]; norm_num [abs_of_neg]

/-! ## Cosine similarity (`quickstart_openai.py`, `cosine_similarity`)

The Python function computes `np.dot(a, b) / (np.linalg.norm(a) * np.linalg.norm(b))`
on two lists of floats.  `np.dot` on two 1-D arrays raises a `ValueError`
when the lengths differ, so it is embedded as an `Option`; the norms are
`sqrt` of the sum of squares. -/

/-- The sum of pairwise products of two equal-length float lists, the value
`np.dot` returns when the shapes match. -/
def dotSum (a b : List ℝ) : ℝ :=
  ((a.zip b).map fun p => p.1 * p.2).sum

/-- Embedding of `np.dot` on 1-D arrays: a `ValueError` (here `none`) when
the lengths differ, otherwise the sum of pairwise products. -/
def np_dot (a b : List ℝ) : Option ℝ :=
  if a.length = b.length then some (dotSum a b) else none

/-- The sum of squares of a float list (the square of `np.linalg.norm`). -/
def sumSq (a : List ℝ) : ℝ :=
  (a.map fun x => x * x).sum

/-- Embedding of `np.linalg.norm` on a 1-D array: the Euclidean norm. -/
noncomputable def np_norm (a : List ℝ) : ℝ :=
  Real.sqrt (sumSq a)

/-- Embedding of `cosine_similarity` from `demonstrate_openai_embeddings`:
`np.dot(a, b) / (a_norm * b_norm)`, propagating the `np.dot` dimension
error. -/
noncomputable def cosine_similarity (a b : List ℝ) : Option ℝ :=
  match np_dot a b with
  | none => none
  | some d => some (d / (np_norm a * np_norm b))

lemma dotSum_cons (x y : ℝ) (xs ys : List ℝ) :
    dotSum (x :: xs) (y :: ys) = x * y + dotSum xs ys := by
  simp [dotSum]

lemma sumSq_cons (x : ℝ) (xs : List ℝ) :
    sumSq (x :: xs) = x * x + sumSq xs := by
  simp [sumSq]

lemma dotSum_comm (a : List ℝ) : ∀ b : List ℝ, dotSum a b = dotSum b a := by
  induction a with
  | nil => intro b; cases b <;> simp [dotSum]
  | cons x xs ih =>
    intro b
    cases b with
    | nil => simp [dotSum]
    | cons y ys => rw [dotSum_cons, dotSum_cons, ih ys, mul_comm]

lemma dotSum_eq_sum_range (a : List ℝ) : ∀ b : List ℝ, a.length = b.length →
    dotSum a b = ∑ i ∈ Finset.range a.length, a.getD i 0 * b.getD i 0 := by
  induction a with
  | nil => intro b _; simp [dotSum]
  | cons x xs ih =>
    intro b h
    cases b with
    | nil => simp at h
    | cons y ys =>
      simp only [List.length_cons] at h
      rw [List.length_cons, Finset.sum_range_succ']
      simp only [List.getD_cons_succ, List.getD_cons_zero]
      rw [dotSum_cons, ih ys (by omega)]
      ring

lemma sumSq_eq_sum_range (a : List ℝ) :
    sumSq a = ∑ i ∈ Finset.range a.length, a.getD i 0 ^ 2 := by
  induction a with
  | nil => simp [sumSq]
  | cons x xs ih =>
    rw [List.length_cons, Finset.sum_range_succ']
    simp only [List.getD_cons_succ, List.getD_cons_zero]
    rw [sumSq_cons, ih]
    ring

lemma sumSq_nonneg (a : List ℝ) : 0 ≤ sumSq a := by
  rw [sumSq_eq_sum_range]
  exact Finset.sum_nonneg fun i _ => sq_nonneg _

/-- Cauchy-Schwarz for the list dot product. -/
lemma dotSum_sq_le (a b : List ℝ) (h : a.length = b.length) :
    dotSum a b ^ 2 ≤ sumSq a * sumSq b := by
  rw [dotSum_eq_sum_range a b h, sumSq_eq_sum_range a, sumSq_eq_sum_range b, ← h]
  exact Finset.sum_mul_sq_le_sq_mul_sq _ _ _

/-- Claim C3: `cosine_similarity` is symmetric on equal-dimension vectors. -/
theorem cosine_similarity_comm (a b : List ℝ) (h : a.length = b.length) :
    cosine_similarity a b = cosine_similarity b a := by
  simp only [cosine_similarity, np_dot, h, if_true, eq_self_iff_true]
  rw [dotSum_comm a b, mul_comm]

/-- Witness for C3 at the concrete vectors `[1, 2]` and `[3, 4]`. -/
theorem cosine_similarity_comm_witness :
    ([(1 : ℝ), 2]).length = ([(3 : ℝ), 4]).length ∧
      cosine_similarity [(1 : ℝ), 2] [(3 : ℝ), 4]
        = cosine_similarity [(3 : ℝ), 4] [(1 : ℝ), 2] :=
  ⟨rfl, cosine_similarity_comm _ _ rfl⟩

/-- Counterexample to Claim C4 as stated: the zero vector is an
equal-dimension pair with itself on which the denominator
`a_norm * b_norm` is zero, so the denominator is not nonzero for every
pair of equal-dimension vectors. -/
theorem cosine_denominator_zero_on_zero_vector :
    ([(0 : ℝ)]).length = ([(0 : ℝ)]).length ∧
      np_norm [(0 : ℝ)] * np_norm [(0 : ℝ)] = 0 := by
  refine ⟨rfl, ?_⟩
  have h0 : sumSq [(0 : ℝ)] = 0 := by norm_num [sumSq]
  rw [np_norm, h0, Real.sqrt_zero, mul_zero]

/-- Claim C4 (amended): for equal-dimension vectors with nonzero sum of
squares (nonzero vectors), the denominator is nonzero and
`cosine_similarity` returns a value in `[-1, 1]`. -/
theorem cosine_similarity_in_unit_interval (a b : List ℝ)
    (hlen : a.length = b.length) (ha : sumSq a ≠ 0) (hb : sumSq b ≠ 0) :
    np_norm a * np_norm b ≠ 0 ∧
      ∃ r, cosine_similarity a b = some r ∧ -1 ≤ r ∧ r ≤ 1 := by
  have hA : 0 < sumSq a := lt_of_le_of_ne (sumSq_nonneg a) (Ne.symm ha)
  have hB : 0 < sumSq b := lt_of_le_of_ne (sumSq_nonneg b) (Ne.symm hb)
  have hna : 0 < np_norm a := Real.sqrt_pos.mpr hA
  have hnb : 0 < np_norm b := Real.sqrt_pos.mpr hB
  have hden : 0 < np_norm a * np_norm b := mul_pos hna hnb
  have habs : |dotSum a b| ≤ np_norm a * np_norm b := by
    rw [← Real.sqrt_sq_eq_abs]
    calc Real.sqrt (dotSum a b ^ 2)
        ≤ Real.sqrt (sumSq a * sumSq b) := Real.sqrt_le_sqrt (dotSum_sq_le a b hlen)
      _ = np_norm a * np_norm b := Real.sqrt_mul (sumSq_nonneg a) _
  obtain ⟨hlow, hhigh⟩ := abs_le.mp habs
  refine ⟨ne_of_gt hden, dotSum a b / (np_norm a * np_norm b), ?_, ?_, ?_⟩
  · simp [cosine_similarity, np_dot, hlen]
  · rw [le_div_iff₀ hden]
    linarith
  · rw [div_le_one hden]
    exact hhigh

/-- Witness for the amended C4 at the concrete vectors `[1]` and `[1]`. -/
theorem cosine_similarity_in_unit_interval_witness :
    ([(1 : ℝ)]).length = ([(1 : ℝ)]).length ∧ sumSq [(1 : ℝ)] ≠ 0 ∧
      (np_norm [(1 : ℝ)] * np_norm [(1 : ℝ)] ≠ 0 ∧
        ∃ r, cosine_similarity [(1 : ℝ)] [(1 : ℝ)] = some r ∧ -1 ≤ r ∧ r ≤ 1) :=
  ⟨rfl, by norm_num [sumSq],
    cosine_similarity_in_unit_interval _ _ rfl (by norm_num [sumSq]) (by norm_num [sumSq])⟩

/-- Claim C5: on vectors of differing lengths `cosine_similarity` fails
(the embedded `np.dot` dimension error) instead of returning a score. -/
theorem cosine_similarity_dim_mismatch (a b : List ℝ) (h : a.length ≠ b.length) :
    cosine_similarity a b = none := by
  simp [cosine_similarity, np_dot, h]

/-- Witness for C5 at the concrete vectors `[1]` and `[1, 2]`. -/
theorem cosine_similarity_dim_mismatch_witness :
    ([(1 : ℝ)]).length ≠ ([(1 : ℝ), 2]).length ∧
      cosine_similarity [(1 : ℝ)] [(1 : ℝ), 2] = none :=
  ⟨by norm_num, cosine_similarity_dim_mismatch _ _ (by norm_num)⟩

/-! ## Embedding dimensions and provider construction (`quickstart_openai.py`) -/

/-- The model-to-dimension dictionary inside `get_embedding_dimension`. -/
def embedding_dimensions : List (String × Nat) :=
  [("text-embedding-3-small", 1536),
   ("text-embedding-3-large", 3072),
   ("text-embedding-ada-002", 1536)]

/-- Embedding of `OpenAIEmbeddingProvider.get_embedding_dimension`:
`dimensions.get(self.model, 1536)`, a dictionary lookup defaulting
to 1536. -/
def get_embedding_dimension (model : String) : Nat :=
  match embedding_dimensions.lookup model with
  | some d => d
  | none => 1536

/-- Claim C9: `get_embedding_dimension` is total and defaults silently:
3072 for `text-embedding-3-large` and 1536 for every other model string
(including the two other known models). -/
theorem get_embedding_dimension_total (model : String) :
    get_embedding_dimension model =
      if model = "text-embedding-3-large" then 3072 else 1536 := by
  by_cases h1 : model = "text-embedding-3-small" <;>
    by_cases h2 : model = "text-embedding-3-large" <;>
      by_cases h3 : model = "text-embedding-ada-002" <;>
        simp_all [get_embedding_dimension, embedding_dimensions, List.lookup_cons,
          beq_false_of_ne]

/-- Outcome of running `OpenAIEmbeddingProvider.__init__`. -/
inductive InitOutcome
  | ok (api_key : String)
  | valueError
deriving DecidableEq, Repr

/-- Embedding of `OpenAIEmbeddingProvider.__init__`: the client key is
`api_key or OPENAI_API_KEY` (Python `or` falls through to the module-level
environment value when the argument is `None` or the empty string), and a
`ValueError` is raised exactly when the resolved key is falsy (empty). -/
def provider_init (api_key : Option String) (envKey : String) : InitOutcome :=
  let resolved :=
    match api_key with
    | none => envKey
    | some k => if k = "" then envKey else k
  if resolved = "" then InitOutcome.valueError else InitOutcome.ok resolved

/-- Claim C10: `provider_init` raises `ValueError` exactly when both the
`api_key` argument and the module-level `OPENAI_API_KEY` value are empty;
equivalently, construction succeeds exactly when some non-empty key
(argument or environment) is available. -/
theorem provider_init_valueError_iff (api_key : Option String) (envKey : String) :
    (provider_init api_key envKey = InitOutcome.valueError ↔
      (api_key = none ∨ api_key = some "") ∧ envKey = "") ∧
    (provider_init api_key envKey ≠ InitOutcome.valueError ↔
      (∃ k, api_key = some k ∧ k ≠ "") ∨ envKey ≠ "") := by
  cases api_key with
  | none =>
    by_cases h : envKey = "" <;> simp [provider_init, h]
  | some k =>
    by_cases hk : k = "" <;> by_cases h : envKey = "" <;>
      simp [provider_init, hk, h]

/-! ## Best-match selection (`demonstrate_openai_embeddings`)

The script computes `best_match_idx = similarities.index(max(similarities))`.
Python `max` scans left to right and replaces the current value only when
the next item is strictly greater, so it returns the first maximal
element; `list.index` returns the first index holding the given value. -/

/-- One step of Python `max`: keep the running value unless the next item
is strictly greater. -/
def pyMaxStep (m y : ℚ) : ℚ :=
  if m < y then y else m

/-- Embedding of Python `max` over a list of similarity scores (`none` on
the empty list, where Python raises). -/
def pythonMax : List ℚ → Option ℚ
  | [] => none
  | x :: xs => some (xs.foldl pyMaxStep x)

/-- Embedding of Python `list.index`: the index of the first occurrence
of `v` (its callers in the script only use it on members). -/
def listIndex : List ℚ → ℚ → Nat
  | [], _ => 0
  | x :: xs, v => if x = v then 0 else listIndex xs v + 1

/-- Embedding of `similarities.index(max(similarities))`, the best-match
selection in `demonstrate_openai_embeddings`. -/
def best_match_idx (sims : List ℚ) : Option Nat :=
  match pythonMax sims with
  | none => none
  | some m => some (listIndex sims m)

lemma le_pyMaxStep_left (m y : ℚ) : m ≤ pyMaxStep m y := by
  unfold pyMaxStep
  split
  · exact le_of_lt (by assumption)
  · exact le_rfl

lemma le_pyMaxStep_right (m y : ℚ) : y ≤ pyMaxStep m y := by
  unfold pyMaxStep
  split
  · exact le_rfl
  · exact le_of_not_lt (by assumption)

lemma le_foldl_pyMax : ∀ (xs : List ℚ) (x : ℚ), x ≤ xs.foldl pyMaxStep x := by
  intro xs
  induction xs with
  | nil => intro x; simp
  | cons y ys ih =>
    intro x
    rw [List.foldl_cons]
    exact le_trans (le_pyMaxStep_left x y) (ih _)

lemma foldl_pyMax_mem : ∀ (xs : List ℚ) (x : ℚ),
    xs.foldl pyMaxStep x = x ∨ xs.foldl pyMaxStep x ∈ xs := by
  intro xs
  induction xs with
  | nil => intro x; left; rfl
  | cons y ys ih =>
    intro x
    rw [List.foldl_cons]
    rcases ih (pyMaxStep x y) with h | h
    · rw [h]
      unfold pyMaxStep
      split
      · right; exact List.mem_cons_self y ys
      · left; rfl
    · right; exact List.mem_cons_of_mem _ h

lemma mem_le_foldl_pyMax : ∀ (xs : List ℚ) (x z : ℚ), z ∈ xs →
    z ≤ xs.foldl pyMaxStep x := by
  intro xs
  induction xs with
  | nil => intro x z h; exact absurd h (List.not_mem_nil z)
  | cons y ys ih =>
    intro x z h
    rw [List.foldl_cons]
    rcases List.mem_cons.mp h with rfl | h'
    · exact le_trans (le_pyMaxStep_right x z) (le_foldl_pyMax ys _)
    · exact ih _ z h'

lemma listIndex_le_length (l : List ℚ) (v : ℚ) : listIndex l v ≤ l.length := by
  induction l with
  | nil => simp [listIndex]
  | cons x xs ih =>
    by_cases hx : x = v <;> simp [listIndex, hx]
    omega

lemma listIndex_lt_length (l : List ℚ) (v : ℚ) (h : v ∈ l) :
    listIndex l v < l.length := by
  induction l with
  | nil => exact absurd h (List.not_mem_nil v)
  | cons x xs ih =>
    by_cases hx : x = v <;> simp [listIndex, hx]
    have hv : v ∈ xs := by
      rcases List.mem_cons.mp h with rfl | hv
      · exact absurd rfl hx
      · exact hv
    exact ih hv

lemma listIndex_get (l : List ℚ) (v : ℚ) (h : v ∈ l)
    (hlt : listIndex l v < l.length) : l.get ⟨listIndex l v, hlt⟩ = v := by
  induction l with
  | nil => exact absurd h (List.not_mem_nil v)
  | cons x xs ih =>
    by_cases hx : x = v
    · have h0 : listIndex (x :: xs) v = 0 := by simp [listIndex, hx]
      subst hx
      simp only [h0] at hlt ⊢
      rfl
    · have hs : listIndex (x :: xs) v = listIndex xs v + 1 := by simp [listIndex, hx]
      have hv : v ∈ xs := by
        rcases List.mem_cons.mp h with rfl | hv
        · exact absurd rfl hx
        · exact hv
      have hlt' : listIndex xs v < xs.length := listIndex_lt_length xs v hv
      have hfin : (⟨listIndex (x :: xs) v, hlt⟩ : Fin (x :: xs).length)
          = ⟨listIndex xs v + 1, by rw [← hs]; exact hlt⟩ := Fin.ext hs
      rw [hfin]
      exact ih hv hlt'

lemma listIndex_min (l : List ℚ) (v : ℚ) :
    ∀ (j : Nat) (hj : j < listIndex l v) (hjl : j < l.length),
      l.get ⟨j, hjl⟩ ≠ v := by
  induction l with
  | nil => intro j hj hjl; simp [listIndex] at hj
  | cons x xs ih =>
    intro j hj hjl
    by_cases hx : x = v
    · simp [listIndex, hx] at hj
    · have hs : listIndex (x :: xs) v = listIndex xs v + 1 := by simp [listIndex, hx]
      rw [hs] at hj
      cases j with
      | zero => exact hx
      | succ k =>
        have hk : k < listIndex xs v := by omega
        have hkl : k < xs.length := by
          have := List.length_cons x xs
          omega
        have : (x :: xs).get ⟨k + 1, hjl⟩ = xs.get ⟨k, hkl⟩ := rfl
        rw [this]
        exact ih k hk hkl

/-- Claim C2: the best match reported by `demonstrate_openai_embeddings`
is a review whose similarity to the query is maximal; among equal maximal
similarities the earliest review in the list is selected (every earlier
index has strictly smaller similarity); and the selection is
deterministic on the same similarity list. -/
theorem best_match_first_maximal (sims : List ℚ) (h : sims ≠ []) :
    ∃ (i : Nat) (hi : i < sims.length),
      best_match_idx sims = some i ∧
      (∀ (j : Nat) (hj : j < sims.length), sims.get ⟨j, hj⟩ ≤ sims.get ⟨i, hi⟩) ∧
      (∀ (j : Nat) (hj : j < i), sims.get ⟨j, lt_trans hj hi⟩ < sims.get ⟨i, hi⟩) ∧
      best_match_idx sims = best_match_idx sims := by
  cases sims with
  | nil => exact absurd rfl h
  | cons x xs =>
    set M := xs.foldl pyMaxStep x with hM
    have hmem : M ∈ x :: xs := by
      rcases foldl_pyMax_mem xs x with h1 | h1
      · rw [hM, h1]; exact List.mem_cons_self x xs
      · exact List.mem_cons_of_mem _ h1
    have hub : ∀ z ∈ x :: xs, z ≤ M := by
      intro z hz
      rcases List.mem_cons.mp hz with rfl | hz'
      · exact le_foldl_pyMax xs z
      · exact mem_le_foldl_pyMax xs x z hz'
    have hi : listIndex (x :: xs) M < (x :: xs).length :=
      listIndex_lt_length _ M hmem
    refine ⟨listIndex (x :: xs) M, hi, rfl, ?_, ?_, rfl⟩
    · intro j hj
      rw [listIndex_get _ M hmem hi]
      exact hub _ (List.get_mem _ _ _)
    · intro j hj
      rw [listIndex_get _ M hmem hi]
      have hne := listIndex_min (x :: xs) M j hj (lt_trans hj hi)
      exact lt_of_le_of_ne (hub _ (List.get_mem _ _ _)) hne

/-- Witness for C2 at the concrete similarity list
`[1/2, 9/10, 9/10, 1/10]` (maximum 9/10, first attained at index 1). -/
theorem best_match_first_maximal_witness :
    ([(1 : ℚ)/2, 9/10, 9/10, 1/10] ≠ []) ∧
      ∃ (i : Nat) (hi : i < ([(1 : ℚ)/2, 9/10, 9/10, 1/10] : List ℚ).length),
        best_match_idx [(1 : ℚ)/2, 9/10, 9/10, 1/10] = some i ∧
        (∀ (j : Nat) (hj : j < ([(1 : ℚ)/2, 9/10, 9/10, 1/10] : List ℚ).length),
          ([(1 : ℚ)/2, 9/10, 9/10, 1/10] : List ℚ).get ⟨j, hj⟩
            ≤ ([(1 : ℚ)/2, 9/10, 9/10, 1/10] : List ℚ).get ⟨i, hi⟩) ∧
        (∀ (j : Nat) (hj : j < i),
          ([(1 : ℚ)/2, 9/10, 9/10, 1/10] : List ℚ).get ⟨j, lt_trans hj hi⟩
            < ([(1 : ℚ)/2, 9/10, 9/10, 1/10] : List ℚ).get ⟨i, hi⟩) ∧
        best_match_idx [(1 : ℚ)/2, 9/10, 9/10, 1/10]
          = best_match_idx [(1 : ℚ)/2, 9/10, 9/10, 1/10] :=
  ⟨by decide, best_match_first_maximal _ (by decide)⟩

/-! ## Sample review records (`quickstart.py`, `add_sample_reviews`) -/

/-- A field value of a review record: the scripts use string fields
(`id`, `text`) and float fields (`rating`). -/
inductive FieldValue
  | str (s : String)
  | num (q : ℚ)
deriving DecidableEq, Repr

/-- A record as passed to `source.put`: a mapping from field name to
value, embedded as an association list. -/
def ReviewRecord : Type := List (String × FieldValue)

/-- The `reviews_data` list that `add_sample_reviews` passes to
`source.put`, field for field. -/
def reviews_data : List (List (String × FieldValue)) :=
  [[("id", FieldValue.str "1"),
    ("text", FieldValue.str "Incredible performances and a great story, masterpiece of cinema!"),
    ("rating", FieldValue.num 4.5)],
   [("id", FieldValue.str "2"),
    ("text", FieldValue.str "A tedious plot with bad acting, complete waste of time."),
    ("rating", FieldValue.num 1.5)],
   [("id", FieldValue.str "3"),
    ("text", FieldValue.str "Amazing visual effects but the story could be better."),
    ("rating", FieldValue.num 3.5)],
   [("id", FieldValue.str "4"),
    ("text", FieldValue.str "One of the best films I\x27ve ever seen, absolutely brilliant!"),
    ("rating", FieldValue.num 5.0)],
   [("id", FieldValue.str "5"),
    ("text", FieldValue.str "Mediocre acting and a predictable storyline."),
    ("rating", FieldValue.num 2.0)],
   [("id", FieldValue.str "6"),
    ("text", FieldValue.str "Outstanding direction and phenomenal performances throughout."),
    ("rating", FieldValue.num 4.8)],
   [("id", FieldValue.str "7"),
    ("text", FieldValue.str "Boring and uninspired, couldn\x27t even finish watching."),
    ("rating", FieldValue.num 1.0)],
   [("id", FieldValue.str "8"),
    ("text", FieldValue.str "Decent movie, entertaining but nothing special."),
    ("rating", FieldValue.num 3.0)]]

/-- Whether a record supplies a value for the named field. -/
def hasField (r : List (String × FieldValue)) (name : String) : Bool :=
  r.any fun kv => kv.1 == name

/-- Claim C6: every record `add_sample_reviews` passes to `source.put`
carries a value for every field referenced by the configured spaces (the
`id` field, the text space's `text` field and the rating space's
`rating` field), so the missing-field ingestion path is never
exercised. -/
theorem reviews_data_complete :
    ∀ r ∈ reviews_data,
      hasField r "id" = true ∧ hasField r "text" = true ∧
        hasField r "rating" = true := by
  decide

/-- The first record of `reviews_data`. -/
def first_review : List (String × FieldValue) :=
  [("id", FieldValue.str "1"),
   ("text", FieldValue.str "Incredible performances and a great story, masterpiece of cinema!"),
   ("rating", FieldValue.num 4.5)]

/-- Witness for C6 at the first sample record. -/
theorem reviews_data_complete_witness :
    first_review ∈ reviews_data ∧
      (hasField first_review "id" = true ∧ hasField first_review "text" = true ∧
        hasField first_review "rating" = true) :=
  ⟨by unfold reviews_data first_review; exact List.mem_cons_self _ _,
   reviews_data_complete first_review
     (by unfold reviews_data first_review; exact List.mem_cons_self _ _)⟩

/-! ## OpenAI embedding provider (`quickstart_openai.py`)

`get_embedding` preprocesses one text with `text.replace("\n", " ")` and
sends `input=[text]` to the embeddings endpoint of `self.model`, reading
back `response.data[0].embedding`; `get_embeddings` preprocesses each
text the same way and sends the whole list as `input`, reading back one
embedding per item in order.  The remote endpoint is opaque, so it is
embedded as an arbitrary function `api : String → String → List ℝ` from
model name and preprocessed text to the returned vector, applied
positionally to each request item. -/

/-- The newline preprocessing both embedding methods apply
(`text.replace("\n", " ")`). -/
def preprocess (t : String) : String :=
  t.replace "\n" " "

/-- Embedding of `OpenAIEmbeddingProvider.get_embedding`. -/
def get_embedding (api : String → String → List ℝ) (model t : String) : List ℝ :=
  api model (preprocess t)

/-- Embedding of `OpenAIEmbeddingProvider.get_embeddings`. -/
def get_embeddings (api : String → String → List ℝ) (model : String)
    (ts : List String) : List (List ℝ) :=
  (ts.map preprocess).map (api model)

/-- Claim C8: single-text and batch embedding agree: `get_embeddings`
on a one-element list returns exactly the one vector `get_embedding`
returns for that text (same preprocessing, same model, same endpoint),
and `get_embeddings` preserves the order and length of its input. -/
theorem get_embeddings_singleton_agrees (api : String → String → List ℝ)
    (model : String) :
    (∀ t : String, get_embeddings api model [t] = [get_embedding api model t]) ∧
    (∀ ts : List String,
        get_embeddings api model ts = ts.map (get_embedding api model)) ∧
    (∀ ts : List String, (get_embeddings api model ts).length = ts.length) := by
  refine ⟨fun t => rfl, fun ts => ?_, fun ts => ?_⟩
  · simp [get_embeddings, get_embedding, List.map_map]
  · simp [get_embeddings]

/-! ## Query execution model (`quickstart.py`, `search_reviews` /
`search_reviews_natural`)

Both functions call `app.query(...)` on the in-memory executor and
convert the result; the executor engine itself is the external
superlinked library, not under the repository sources, so it is modelled
from the spec: the index state is the list of indexed records in
insertion order (section 3), `search` is a pure linear scan that scores
every record with the weighted composite score, sorts descending and is
read-only (sections 4.2 and 5), and the natural-language translator only
produces a parameter mapping (section 4.4). -/

/-- Modelled from the spec: a fully ingested review record held by the
Index (section 3, Record/IndexedEntry). -/
structure IndexedReview where
  id : String
  text : String
  rating : ℚ
deriving DecidableEq, Repr

/-- Modelled from the spec: the executor's mutable state is the Index's
record store, kept in insertion order (sections 3 and 5). -/
structure AppState where
  entries : List IndexedReview
deriving DecidableEq, Repr

/-- Modelled from the spec: ingestion via `source.put` appends records to
the store (section 6, ingestion interface); the only write operation. -/
def source_put (s : AppState) (rs : List IndexedReview) : AppState :=
  ⟨s.entries ++ rs⟩

/-- The explicit query parameters of the quickstart query
(`search_text`, `search_rating`). -/
structure QueryParams where
  search_text : String
  search_rating : ℚ
deriving DecidableEq, Repr

/-- Modelled from the spec: `search` scores every stored record with the
composite score and sorts descending by score (section 4.2); `textSim`
is the deterministic stub text-space similarity (section 4.4). -/
def rankedResults (cfg : SearchIndexConfig) (textSim : String → String → ℚ)
    (s : AppState) (p : QueryParams) : List (String × ℚ) :=
  (s.entries.map fun e =>
      (e.id, compositeScore cfg (textSim p.search_text e.text) e.rating p.search_rating)
    ).insertionSort fun a b => b.2 ≤ a.2

/-- Modelled from the spec: `app.query` resolves a query plan against the
Index and returns the ranked results; queries are read-only, so the
state component is returned untouched (section 5). -/
def app_query (cfg : SearchIndexConfig) (textSim : String → String → ℚ)
    (s : AppState) (p : QueryParams) : List (String × ℚ) × AppState :=
  (rankedResults cfg textSim s p, s)

/-- Embedding of `search_reviews`: runs `app.query` with the two explicit
parameters. -/
def search_reviews (cfg : SearchIndexConfig) (textSim : String → String → ℚ)
    (s : AppState) (search_text : String) (search_rating : ℚ) :
    List (String × ℚ) × AppState :=
  app_query cfg textSim s ⟨search_text, search_rating⟩

/-- Embedding of `search_reviews_natural`: the natural-language
translator (`llm`, opaque) extracts the parameter mapping from the free
text, which is then resolved through the same query path. -/
def search_reviews_natural (cfg : SearchIndexConfig)
    (textSim : String → String → ℚ) (llm : String → QueryParams)
    (s : AppState) (natural_query : String) : List (String × ℚ) × AppState :=
  app_query cfg textSim s (llm natural_query)

/-- Claim C7: query execution never mutates the index: `search_reviews`
and `search_reviews_natural` leave the state unchanged, and repeating the
same query against the resulting (unmodified) state returns the same
ranked results. -/
theorem queries_never_mutate (cfg : SearchIndexConfig)
    (textSim : String → String → ℚ) (llm : String → QueryParams)
    (s : AppState) (st : String) (sr : ℚ) (nq : String) :
    (∀ p : QueryParams, (app_query cfg textSim s p).2 = s) ∧
    (search_reviews cfg textSim s st sr).2 = s ∧
    (search_reviews_natural cfg textSim llm s nq).2 = s ∧
    (search_reviews cfg textSim (search_reviews cfg textSim s st sr).2 st sr).1
      = (search_reviews cfg textSim s st sr).1 ∧
    (search_reviews_natural cfg textSim llm
        (search_reviews_natural cfg textSim llm s nq).2 nq).1
      = (search_reviews_natural cfg textSim llm s nq).1 :=
  ⟨fun _ => rfl, rfl, rfl, rfl, rfl⟩

end Quickstart
